import Mathlib

/-!
# Verification of `temfpy.econometrics` (multinomial probit estimation)

Shallow embedding of `src/temfpy/econometrics.py`. Matrices of floats are
modelled as functions `Nat → Nat → ℝ` (meaningful at indices below the
stated dimension), numpy arrays of floats as `List ℝ`, the integer outcome
column as `List ℤ` (the source casts it with `to_numpy(dtype=np.int64)` and
outcomes are categorical codes), `sys.exit`/uncaught exceptions as
`Except String`.  External collaborators (the patsy formula parser, the
estimagic maximizer, the `temfpy.integration_methods` module) are passed in
as abstract parameters.
-/

/-- Triangular number `0 + 1 + ⋯ + n`, the running offset `a` accumulated by
the lower-triangle fill loop of `_multinomial_probit_loglikeobs`. -/
def tri : Nat → Nat
  | 0 => 0
  | n + 1 => tri n + (n + 1)

/-- Label of one entry of the labeled parameter vector `params_sr`: the
source uses pandas MultiIndex tuples `("choice_<j>", "betha_<name>")` and
`("covariance", i)`, modelled structurally. -/
inductive PKey where
  | choice (j : Nat) (name : String)
  | covariance (i : Nat)
deriving DecidableEq

/-- Message passed to `sys.exit` at each of the three validation points. -/
def covStructureError : String := "cov_structure must either be iid or free"

/-- Modelled from the spec: the integration-method library
(`temfpy.integration_methods`, a module of this repository not under
`src/`).  The spec describes it as a collaborator exposing named strategies
(`mc_integration`, `smooth_mc_integration`, `gauss_integration`) as module
attributes, each mapping `(u_prime, covariance, y)` to a probability per
observation.  `routines` models Python attribute lookup on the module:
`none` means the attribute is absent (so `getattr` raises
`AttributeError`). -/
structure IntegrationModule where
  routines : String → Option ((Nat → Nat → ℝ) → (Nat → Nat → ℝ) → List ℤ → List ℝ)

/-- Message of the `AttributeError` raised by `getattr` on a name the
integration-method module does not expose. -/
def attributeErrorMsg (name : String) : String :=
  "module temfpy.integration_methods has no attribute " ++ name

/-- Minimum of a list of integers, `y.min()` in the source (meaningful on
nonempty lists, matching numpy which rejects an empty array). -/
def listMin (l : List ℤ) : ℤ := l.foldl min (l.headD 0)

/-- Lower triangle (including diagonal) of the `(d × d)` identity matrix read
row-major, the `cov` list built by `_multinomial_processing` under the
"free" structure from `covariance = np.eye(n_choices - 1)` with the nested
`for i / for j / if j <= i` loop. -/
def identityLowerPack (d : Nat) : List ℝ :=
  (List.range d).flatMap fun i =>
    ((List.range d).filter (fun j => j ≤ i)).map fun j => if i = j then (1 : ℝ) else 0

/-- Embedding of `_multinomial_processing`.  The two `patsy.dmatrices` calls
with the `dropna` concatenation between them are external collaborator
steps; they are collapsed into a single abstract `patsy` parameter
returning the aligned outcome column, the design-matrix column names and
the design-matrix rows.  `rand` models the ambient-RNG draw
`np.random.rand(n_var * (n_choices - 1)) * 0.1` (the source threads no
seed). -/
def multinomial_processing {D : Type}
    (patsy : String → D → List ℤ × List String × List (List ℝ))
    (rand : Nat → ℝ) (formula : String) (data : D) (cov_structure : String) :
    Except String (List ℤ × List (List ℝ) × List (PKey × ℝ)) :=
  if cov_structure ≠ "iid" ∧ cov_structure ≠ "free" then
    Except.error covStructureError
  else
    let parsed := patsy formula data
    let y := parsed.1
    let var_names := parsed.2.1
    let x := parsed.2.2
    let n_var := var_names.length
    let n_choices := y.dedup.length
    let bethas := (List.range (n_var * (n_choices - 1))).map rand
    let coef_keys :=
      (List.range (n_choices - 1)).flatMap fun choice =>
        var_names.map fun name => PKey.choice choice name
    let params_sr :=
      if cov_structure = "iid" then
        coef_keys.zip bethas
      else
        let cov := identityLowerPack (n_choices - 1)
        let cov_keys := (List.range (n_choices * (n_choices - 1) / 2)).map PKey.covariance
        (coef_keys ++ cov_keys).zip (bethas ++ cov)
    Except.ok (y.map (fun v => v - listMin y), x, params_sr)

/-- Projection of a processing result onto its outcome-vector component. -/
def procY (e : Except String (List ℤ × List (List ℝ) × List (PKey × ℝ))) :
    Option (List ℤ) :=
  match e with
  | Except.ok r => some r.1
  | Except.error _ => none

/-- Entry `(i, j)` of `np.eye d`. -/
def npEye (d i j : Nat) : ℝ := if i = j ∧ i < d then 1 else 0

/-- Entry `(i, j)` of `np.ones (d, d)`. -/
def npOnes (d i j : Nat) : ℝ := if i < d ∧ j < d then 1 else 0

/-- One iteration of the lower-triangle fill loop:
`cov[i, :(i + 1)] = covariance[a:(a + k)]` with `k = i + 1`, writing row `i`
at columns `q ≤ i` from the packed vector starting at offset `a`. -/
def rowFill (c : Nat → ℝ) (M : Nat → Nat → ℝ) (i a : Nat) : Nat → Nat → ℝ :=
  fun p q => if p = i ∧ q ≤ i then c (a + q) else M p q

/-- State of the fill loop of `_multinomial_probit_loglikeobs` after `n`
iterations: the matrix (started from `np.zeros`) and the offset `a`
(started from `0`, advanced by `k = i + 1` each round). -/
def lowerState (c : Nat → ℝ) (n : Nat) : (Nat → Nat → ℝ) × Nat :=
  (List.range n).foldl
    (fun Ma i => (rowFill c Ma.1 i Ma.2, Ma.2 + (i + 1)))
    (fun _ _ => 0, 0)

/-- One iteration of the mirror loop: `cov[i, (i + 1):] = cov[(i + 1):, i]`,
writing row `i` at columns `i + 1 ≤ q < d` from column `i` of the same
matrix (those source entries lie strictly below the diagonal and are
untouched by the statement, so reading the current matrix is faithful). -/
def mirrorRow (M : Nat → Nat → ℝ) (i d : Nat) : Nat → Nat → ℝ :=
  fun p q => if p = i ∧ i + 1 ≤ q ∧ q < d then M q i else M p q

/-- The mirror loop `for i in range(n_choices - 1)` run over dimension `d`. -/
def mirrorLoop (M0 : Nat → Nat → ℝ) (d : Nat) : Nat → Nat → ℝ :=
  (List.range d).foldl (fun M i => mirrorRow M i d) M0

/-- Covariance matrix reconstructed from the packed vector `c` under the
"free" structure: lower-triangle fill followed by mirroring, exactly the
two loops of `_multinomial_probit_loglikeobs`. -/
def freeCovMat (c : Nat → ℝ) (d : Nat) : Nat → Nat → ℝ :=
  mirrorLoop (lowerState c d).1 d

/-- The covariance matrix used by the likelihood: the fixed
`np.eye(d) + np.ones((d, d))` under "iid", the reconstruction from the
packed parameter entries otherwise (the source reaches this `else` only
with `cov_structure = "free"`, after validation). -/
def extractCov (cov_structure : String) (c : Nat → ℝ) (d : Nat) : Nat → Nat → ℝ :=
  if cov_structure = "iid" then fun i j => npEye d i j + npOnes d i j
  else freeCovMat c d

/-- Values of the labeled parameter vector under the `"covariance"` label, in
order: `params["value"]["covariance"].to_numpy()`, as a total index
function (index `i` reads the `i`-th covariance entry). -/
def covValues (params : List (PKey × ℝ)) : Nat → ℝ :=
  fun i =>
    ((params.filter fun kv =>
        match kv.1 with
        | PKey.covariance _ => true
        | _ => false).map (fun kv => kv.2)).getD i 0

/-- Values of the labeled parameter vector under the `"choice_<i>"` label, in
order: `params["value"]["choice_{}".format(i)].to_numpy()`. -/
def selectChoice (params : List (PKey × ℝ)) (i : Nat) : List ℝ :=
  (params.filter fun kv =>
    match kv.1 with
    | PKey.choice j _ => j == i
    | _ => false).map fun kv => kv.2

/-- Coefficient matrix `bethas`: `np.zeros((n_var, n_choices))`, then
`bethas[:, i] = params["value"]["choice_i"]` for `i in range(n_choices - 1)`
— the last column is never written. -/
def bethasMat (params : List (PKey × ℝ)) (n_var n_choices : Nat) : Nat → Nat → ℝ :=
  (List.range (n_choices - 1)).foldl
    (fun B i => fun r cIdx =>
      if cIdx = i ∧ r < n_var then (selectChoice params i).getD r 0 else B r cIdx)
    (fun _ _ => 0)

/-- Utility matrix `u_prime = x.dot(bethas)`: entry `(r, c)` is
`∑ k < n_var, x[r][k] * bethas[k][c]`. -/
def uprimeMat (x : List (List ℝ)) (B : Nat → Nat → ℝ) (n_var : Nat) : Nat → Nat → ℝ :=
  fun r c => ((List.range n_var).map fun k => (x.getD r []).getD k 0 * B k c).sum

/-- The clipping floor `1e-250` of `choice_prob_obs.clip(min=1e-250)`. -/
def clipFloor : ℝ := 1e-250

/-- Elementwise `v.clip(min=floor)`: numpy returns a NEW array with every
entry raised to at least `floor`; it does not modify `v`. -/
def npClipMin (floor : ℝ) (v : List ℝ) : List ℝ := v.map fun p => max p floor

/-- Entrywise `np.log` on nonnegative inputs, valued in the extended reals:
`np.log 0 = -inf`, modelled as `⊥`; positive inputs give the real
logarithm.  Negative inputs (numpy NaN) do not arise: probabilities are in
`[0, 1]`. -/
noncomputable def npLog (p : ℝ) : EReal :=
  if 0 < p then ((Real.log p : ℝ) : EReal) else ⊥

/-- Tail of `_multinomial_probit_loglikeobs` after the probabilities are
obtained: the source executes `choice_prob_obs.clip(min=1e-250)` as a bare
statement — the clipped array is built and immediately discarded — and then
takes `np.log(choice_prob_obs)` of the UNCLIPPED array. -/
noncomputable def probsToLoglik (choice_prob_obs : List ℝ) : List EReal :=
  let _clipped := npClipMin clipFloor choice_prob_obs
  choice_prob_obs.map npLog

/-- Dispatch to the integration routine as written in the source: a branch
comparing `cov_structure` (not `integration_method`) against
`"gauss_integration"`, whose `else` arm does
`getattr(temfpy.integration_methods, integration_method)(u_prime, cov, y)`. -/
def codeDispatch (M : IntegrationModule) (cov_structure integration_method : String)
    (u cov : Nat → Nat → ℝ) (y : List ℤ) : Except String (List ℝ) :=
  if cov_structure = "gauss_integration" then
    match M.routines "gauss_integration" with
    | some f => Except.ok (f u cov y)
    | none => Except.error (attributeErrorMsg "gauss_integration")
  else
    match M.routines integration_method with
    | some f => Except.ok (f u cov y)
    | none => Except.error (attributeErrorMsg integration_method)

/-- Dispatch as the spec words it: solely by the integration-method name,
via the generic attribute lookup, with the tuple `(u_prime, cov, y)`. -/
def specDispatch (M : IntegrationModule) (integration_method : String)
    (u cov : Nat → Nat → ℝ) (y : List ℤ) : Except String (List ℝ) :=
  match M.routines integration_method with
  | some f => Except.ok (f u cov y)
  | none => Except.error (attributeErrorMsg integration_method)

/-- Embedding of `_multinomial_probit_loglikeobs`. -/
noncomputable def multinomial_probit_loglikeobs (M : IntegrationModule)
    (params : List (PKey × ℝ)) (y : List ℤ) (x : List (List ℝ))
    (cov_structure integration_method : String) : Except String (List EReal) :=
  if cov_structure ≠ "iid" ∧ cov_structure ≠ "free" then
    Except.error covStructureError
  else
    let n_var := (x.headD []).length
    let n_choices := y.dedup.length
    let cov := extractCov cov_structure (covValues params) (n_choices - 1)
    let bethas := bethasMat params n_var n_choices
    let u_prime := uprimeMat x bethas n_var
    (codeDispatch M cov_structure integration_method u_prime cov y).map probsToLoglik

/-- Embedding of `_multinomial_probit_loglike`: the sum of the
per-observation contributions. -/
noncomputable def multinomial_probit_loglike (M : IntegrationModule)
    (params : List (PKey × ℝ)) (y : List ℤ) (x : List (List ℝ))
    (cov_structure integration_method : String) : Except String EReal :=
  (multinomial_probit_loglikeobs M params y x cov_structure integration_method).map
    fun l => l.sum

/-- Location of a constraint: a whole labeled block (`"loc": "covariance"`)
or one entry of a block (`"loc": ("covariance", 0)`). -/
inductive CLoc where
  | block (name : String)
  | entry (name : String) (i : Nat)
deriving DecidableEq

/-- One estimagic constraint dict: its location, its `"type"` string, and the
optional `"value"` (present only for `"fixed"` constraints). -/
structure Constraint where
  loc : CLoc
  ctype : String
  value : Option ℝ

/-- Constraint list built by `multinomial_probit`: empty under "iid";
otherwise the valid-covariance constraint on the `"covariance"` block plus
the constraint fixing its entry `0` to the literal `1.0`. -/
def buildConstraints (cov_structure : String) : List Constraint :=
  if cov_structure = "iid" then []
  else
    [⟨CLoc.block "covariance", "covariance", none⟩,
     ⟨CLoc.entry "covariance" 0, "fixed", some 1⟩]

/-- Embedding of the public entry point `multinomial_probit`.  The estimagic
`maximize` collaborator is abstract: it receives the criterion closure, the
starting labeled parameters, the algorithm name and the constraint list,
and its result is returned verbatim. -/
noncomputable def multinomial_probit {D R : Type}
    (patsy : String → D → List ℤ × List String × List (List ℝ))
    (M : IntegrationModule)
    (maximize : (List (PKey × ℝ) → Except String EReal) → List (PKey × ℝ) →
      String → List Constraint → R)
    (rand : Nat → ℝ) (formula : String) (data : D)
    (cov_structure integration_method algorithm : String) : Except String R :=
  if cov_structure ≠ "iid" ∧ cov_structure ≠ "free" then
    Except.error covStructureError
  else
    match multinomial_processing patsy rand formula data cov_structure with
    | Except.error e => Except.error e
    | Except.ok (y, x, params) =>
        Except.ok (maximize
          (fun p => multinomial_probit_loglike M p y x cov_structure integration_method)
          params algorithm (buildConstraints cov_structure))

/-- Row-major read of the lower triangle (diagonal included) of a `d × d`
matrix, the inverse direction of the packed-vector round trip. -/
def readLower (M : Nat → Nat → ℝ) (d : Nat) : List ℝ :=
  (List.range d).flatMap fun i => (List.range (i + 1)).map fun j => M i j

/-! ## Helper lemmas -/

theorem two_mul_tri (n : Nat) : 2 * tri n = n * (n + 1) := by
  induction n with
  | zero => rfl
  | succ n ih =>
      show 2 * (tri n + (n + 1)) = (n + 1) * (n + 2)
      rw [Nat.mul_add, ih]
      ring

theorem tri_eq (n : Nat) : tri n = n * (n + 1) / 2 := by
  have h := two_mul_tri n
  omega

theorem lowerState_spec (c : Nat → ℝ) :
    ∀ n, (lowerState c n).2 = tri n ∧
      ∀ p q, (lowerState c n).1 p q = if p < n ∧ q ≤ p then c (tri p + q) else 0 := by
  intro n
  induction n with
  | zero =>
      refine ⟨rfl, fun p q => ?_⟩
      simp [lowerState]
  | succ n ih =>
      obtain ⟨iha, ihM⟩ := ih
      have hstep : lowerState c (n + 1) =
          (rowFill c (lowerState c n).1 n (lowerState c n).2,
           (lowerState c n).2 + (n + 1)) := by
        unfold lowerState
        rw [List.range_succ, List.foldl_append]
        rfl
      rw [hstep]
      refine ⟨by simpa [tri] using iha, fun p q => ?_⟩
      simp only [rowFill, iha, ihM]
      rcases Nat.lt_trichotomy p n with hlt | heq | hgt
      · rw [if_neg (by omega : ¬(p = n ∧ q ≤ n))]
        by_cases hq : q ≤ p
        · rw [if_pos ⟨hlt, hq⟩, if_pos ⟨by omega, hq⟩]
        · rw [if_neg (by omega), if_neg (by omega)]
      · subst heq
        by_cases hq : q ≤ p
        · rw [if_pos ⟨rfl, hq⟩, if_pos ⟨by omega, hq⟩]
        · rw [if_neg (by omega), if_neg (by omega), if_neg (by omega)]
      · rw [if_neg (by omega), if_neg (by omega), if_neg (by omega)]

theorem mirror_foldl_lower (d p q : Nat) (hq : q ≤ p) :
    ∀ (l : List Nat) (M : Nat → Nat → ℝ),
      (l.foldl (fun M i => mirrorRow M i d) M) p q = M p q := by
  intro l
  induction l with
  | nil => intro M; rfl
  | cons i t ih =>
      intro M
      rw [List.foldl_cons, ih]
      simp only [mirrorRow]
      rw [if_neg]
      rintro ⟨h1, h2, _⟩
      omega

theorem mirror_range_upper (d : Nat) (M : Nat → Nat → ℝ) (p q : Nat)
    (hpq : p < q) (hq : q < d) :
    ∀ n, ((List.range n).foldl (fun M i => mirrorRow M i d) M) p q
      = if p < n then M q p else M p q := by
  intro n
  induction n with
  | zero => simp
  | succ n ih =>
      rw [List.range_succ, List.foldl_append]
      simp only [List.foldl_cons, List.foldl_nil]
      by_cases hp : p = n
      · subst hp
        show mirrorRow _ p d p q = _
        simp only [mirrorRow]
        have hcond : True ∧ p + 1 ≤ q ∧ q < d := ⟨trivial, by omega, hq⟩
        rw [if_pos hcond]
        rw [mirror_foldl_lower d q p (le_of_lt hpq)]
        rw [if_pos (by omega)]
      · show mirrorRow _ n d p q = _
        simp only [mirrorRow]
        rw [if_neg (fun h => hp h.1), ih]
        by_cases h2 : p < n
        · rw [if_pos h2, if_pos (by omega)]
        · rw [if_neg h2, if_neg (by omega)]

theorem freeCovMat_lower (c : Nat → ℝ) (d p q : Nat) (hp : p < d) (hq : q ≤ p) :
    freeCovMat c d p q = c (tri p + q) := by
  unfold freeCovMat mirrorLoop
  rw [mirror_foldl_lower d p q hq, (lowerState_spec c d).2 p q, if_pos ⟨hp, hq⟩]

theorem freeCovMat_upper (c : Nat → ℝ) (d p q : Nat) (hpq : p < q) (hq : q < d) :
    freeCovMat c d p q = c (tri q + p) := by
  unfold freeCovMat mirrorLoop
  rw [mirror_range_upper d _ p q hpq hq d, if_pos (by omega : p < d),
    (lowerState_spec c d).2 q p, if_pos ⟨hq, le_of_lt hpq⟩]

theorem bethas_foldl_untouched (params : List (PKey × ℝ)) (n_var r co : Nat) :
    ∀ (l : List Nat) (B : Nat → Nat → ℝ), (∀ i ∈ l, i ≠ co) →
      (l.foldl (fun B i => fun r2 c2 =>
        if c2 = i ∧ r2 < n_var then (selectChoice params i).getD r2 0 else B r2 c2) B) r co
      = B r co := by
  intro l
  induction l with
  | nil => intro B _; rfl
  | cons i t ih =>
      intro B h
      rw [List.foldl_cons, ih _ (fun j hj => h j (List.mem_cons_of_mem _ hj))]
      rw [if_neg]
      rintro ⟨h1, _⟩
      exact h i (List.mem_cons_self i t) h1.symm

theorem bethas_range_col (params : List (PKey × ℝ)) (n_var r : Nat) (hr : r < n_var) :
    ∀ n ci, ci < n →
      ((List.range n).foldl (fun B i => fun r2 c2 =>
        if c2 = i ∧ r2 < n_var then (selectChoice params i).getD r2 0 else B r2 c2)
        (fun _ _ => 0)) r ci
      = (selectChoice params ci).getD r 0 := by
  intro n
  induction n with
  | zero => intro ci h; exact absurd h (Nat.not_lt_zero ci)
  | succ n ih =>
      intro ci hci
      rw [List.range_succ, List.foldl_append]
      simp only [List.foldl_cons, List.foldl_nil]
      by_cases h : ci = n
      · subst h
        rw [if_pos ⟨rfl, hr⟩]
      · rw [if_neg (fun hh => h hh.1)]
        exact ih ci (by omega)

theorem readLower_of_lower (M : Nat → Nat → ℝ) (c : Nat → ℝ) :
    ∀ d, (∀ p q, p < d → q ≤ p → M p q = c (tri p + q)) →
      readLower M d = (List.range (tri d)).map c := by
  intro d
  induction d with
  | zero => intro _; rfl
  | succ d ih =>
      intro h
      have hsplit : readLower M (d + 1)
          = readLower M d ++ (List.range (d + 1)).map (fun j => M d j) := by
        unfold readLower
        rw [List.range_succ, List.flatMap_append, List.flatMap_cons, List.flatMap_nil,
          List.append_nil, List.range_succ]
      rw [hsplit, ih (fun p q hp hq => h p q (by omega) hq)]
      have hrow : (List.range (d + 1)).map (fun j => M d j)
          = (List.range (d + 1)).map (fun j => c (tri d + j)) :=
        List.map_congr_left
          (fun j hj => h d j (by omega) (by have := List.mem_range.mp hj; omega))
      rw [hrow, show tri (d + 1) = tri d + (d + 1) from rfl,
        List.range_add (tri d) (d + 1), List.map_append, List.map_map]
      simp [Function.comp]

theorem foldl_min_le_init : ∀ (t : List ℤ) (a : ℤ), t.foldl min a ≤ a := by
  intro t
  induction t with
  | nil => intro a; exact le_refl a
  | cons b t ih =>
      intro a
      rw [List.foldl_cons]
      exact le_trans (ih (min a b)) (min_le_left a b)

theorem foldl_min_le_mem : ∀ (t : List ℤ) (a v : ℤ), v ∈ t → t.foldl min a ≤ v := by
  intro t
  induction t with
  | nil => intro a v h; cases h
  | cons b t ih =>
      intro a v h
      rw [List.foldl_cons]
      rcases List.mem_cons.mp h with h | h
      · subst h
        exact le_trans (foldl_min_le_init t (min a v)) (min_le_right a v)
      · exact ih (min a b) v h

theorem foldl_min_mem : ∀ (t : List ℤ) (a : ℤ), t.foldl min a = a ∨ t.foldl min a ∈ t := by
  intro t
  induction t with
  | nil => intro a; exact Or.inl rfl
  | cons b t ih =>
      intro a
      rw [List.foldl_cons]
      rcases ih (min a b) with h | h
      · rw [h]
        rcases min_choice a b with h2 | h2
        · exact Or.inl h2
        · refine Or.inr ?_
          rw [h2]
          exact List.mem_cons_self b t
      · exact Or.inr (List.mem_cons_of_mem b h)

theorem listMin_le (l : List ℤ) (v : ℤ) (h : v ∈ l) : listMin l ≤ v := by
  unfold listMin
  cases l with
  | nil => cases h
  | cons a t =>
      rw [List.headD_cons, List.foldl_cons, min_self]
      rcases List.mem_cons.mp h with h | h
      · subst h
        exact foldl_min_le_init t v
      · exact foldl_min_le_mem t a v h

theorem listMin_mem (l : List ℤ) (h : l ≠ []) : listMin l ∈ l := by
  unfold listMin
  cases l with
  | nil => exact absurd rfl h
  | cons a t =>
      rw [List.headD_cons, List.foldl_cons, min_self]
      rcases foldl_min_mem t a with h1 | h1
      · rw [h1]; exact List.mem_cons_self a t
      · exact List.mem_cons_of_mem a h1

theorem range_map_getD (L : List ℝ) :
    (List.range L.length).map (fun i => L.getD i 0) = L := by
  induction L with
  | nil => rfl
  | cons a t ih =>
      rw [List.length_cons, List.range_succ_eq_map, List.map_cons, List.map_map]
      have hc : ((fun i => (a :: t).getD i 0) ∘ Nat.succ) = fun i => t.getD i 0 := by
        funext i
        simp [List.getD_cons_succ]
      rw [hc, ih]
      simp [List.getD_cons_zero]

/-! ## Claim theorems -/

/-- C2: for every `cov_structure` other than `"iid"` and `"free"`, each of
the three entry points — `_multinomial_processing`,
`_multinomial_probit_loglikeobs` and the top-level `multinomial_probit` —
halts immediately with the configuration error naming the constraint on
the value.  The top-level conclusion holds for every parser, dataset,
integration module and maximizer, so the error is raised before any data
parsing and no partial result is returned. -/
theorem C2_eager_cov_structure_validation {D R : Type}
    (patsy : String → D → List ℤ × List String × List (List ℝ))
    (M : IntegrationModule)
    (maximize : (List (PKey × ℝ) → Except String EReal) → List (PKey × ℝ) →
      String → List Constraint → R)
    (rand : Nat → ℝ) (formula : String) (data : D)
    (params : List (PKey × ℝ)) (y : List ℤ) (x : List (List ℝ))
    (integration_method algorithm s : String)
    (hs : s ≠ "iid" ∧ s ≠ "free") :
    multinomial_processing patsy rand formula data s = Except.error covStructureError ∧
    multinomial_probit_loglikeobs M params y x s integration_method
      = Except.error covStructureError ∧
    multinomial_probit patsy M maximize rand formula data s integration_method algorithm
      = Except.error covStructureError := by
  refine ⟨?_, ?_, ?_⟩
  · unfold multinomial_processing
    rw [if_pos hs]
  · unfold multinomial_probit_loglikeobs
    rw [if_pos hs]
  · unfold multinomial_probit
    rw [if_pos hs]

theorem C2_witness :
    (("other" : String) ≠ "iid" ∧ ("other" : String) ≠ "free") ∧
    (multinomial_processing (fun _ _ => ([], [], [])) (fun _ => 0) "f" () "other"
        = Except.error covStructureError ∧
      multinomial_probit_loglikeobs ⟨fun _ => none⟩ [] [] [] "other" "mc_integration"
        = Except.error covStructureError ∧
      multinomial_probit (fun _ _ => ([], [], [])) ⟨fun _ => none⟩ (fun _ _ _ _ => ())
        (fun _ => 0) "f" () "other" "mc_integration" "scipy_lbfgsb"
        = Except.error covStructureError) :=
  ⟨by decide,
    C2_eager_cov_structure_validation (fun _ _ => ([], [], [])) ⟨fun _ => none⟩
      (fun _ _ _ _ => ()) (fun _ => 0) "f" () [] [] [] "mc_integration" "scipy_lbfgsb"
      "other" (by decide)⟩

/-- C3: `multinomial_probit` builds the empty constraint list under `"iid"`;
under `"free"` it builds exactly two constraints, one marking the
`"covariance"` slice of the labeled parameter vector as a covariance-type
slice and one fixing that slice's first entry (index 0) to the literal
`1.0`; the list built is exactly what is handed to the maximizer, observed
here by instantiating the abstract maximizer with the projection onto its
constraints argument. -/
theorem C3_constraint_list {D : Type}
    (patsy : String → D → List ℤ × List String × List (List ℝ))
    (M : IntegrationModule) (rand : Nat → ℝ) (formula : String) (data : D)
    (integration_method algorithm : String) :
    buildConstraints "iid" = [] ∧
    buildConstraints "free"
      = [⟨CLoc.block "covariance", "covariance", none⟩,
         ⟨CLoc.entry "covariance" 0, "fixed", some 1⟩] ∧
    (buildConstraints "free").length = 2 ∧
    multinomial_probit patsy M (fun _ _ _ constraints => constraints) rand formula data
      "iid" integration_method algorithm = Except.ok [] ∧
    multinomial_probit patsy M (fun _ _ _ constraints => constraints) rand formula data
      "free" integration_method algorithm = Except.ok (buildConstraints "free") :=
  ⟨rfl, rfl, rfl, rfl, rfl⟩

/-- C5: the covariance matrix built inside the likelihood evaluator is
symmetric for both valid covariance structures, at every index pair within
the `(n_choices - 1) × (n_choices - 1)` shape and for every packed
parameter vector. -/
theorem C5_covariance_symmetric (s : String) (c : Nat → ℝ) (d i j : Nat)
    (hs : s = "iid" ∨ s = "free") (hi : i < d) (hj : j < d) :
    extractCov s c d i j = extractCov s c d j i := by
  rcases hs with hs | hs <;> subst hs
  · unfold extractCov npEye npOnes
    rw [if_pos (show ("iid" : String) = "iid" from rfl)]
    by_cases hij : i = j
    · subst hij; rfl
    · have h1 : ¬(i = j ∧ i < d) := fun h => hij h.1
      have h2 : ¬(j = i ∧ j < d) := fun h => hij h.1.symm
      have h3 : i < d ∧ j < d := ⟨hi, hj⟩
      have h4 : j < d ∧ i < d := ⟨hj, hi⟩
      rw [if_neg h1, if_neg h2, if_pos h3, if_pos h4]
  · unfold extractCov
    rw [if_neg (by decide : ¬("free" = "iid"))]
    rcases Nat.lt_trichotomy i j with h | h | h
    · rw [freeCovMat_upper c d i j h hj, freeCovMat_lower c d j i hj (le_of_lt h)]
    · subst h; rfl
    · rw [freeCovMat_lower c d i j hi (le_of_lt h), freeCovMat_upper c d j i h hi]

theorem C5_witness :
    (("free" : String) = "iid" ∨ ("free" : String) = "free") ∧
    (0 : Nat) < 2 ∧ (1 : Nat) < 2 ∧
    extractCov "free" (fun k => (k : ℝ)) 2 0 1 = extractCov "free" (fun k => (k : ℝ)) 2 1 0 :=
  ⟨Or.inr rfl, by decide, by decide,
    C5_covariance_symmetric "free" (fun k => (k : ℝ)) 2 0 1 (Or.inr rfl)
      (by decide) (by decide)⟩

/-- C6: reconstructing the matrix from any packed flat vector of length
`d * (d + 1) / 2` (with `d = n_choices - 1 ≥ 1`) by the fill-and-mirror
loops and then re-reading the lower triangle row-major reproduces the
packed vector exactly; the degenerate binary-choice case `d = 1` is
included (see the witness). -/
theorem C6_pack_roundtrip (L : List ℝ) (d : Nat) (_hd : 1 ≤ d)
    (hL : L.length = d * (d + 1) / 2) :
    readLower (freeCovMat (fun i => L.getD i 0) d) d = L := by
  have h := readLower_of_lower (freeCovMat (fun i => L.getD i 0) d)
    (fun i => L.getD i 0) d (fun p q hp hq => freeCovMat_lower _ d p q hp hq)
  rw [h]
  have htri : tri d = L.length := by rw [tri_eq, hL]
  rw [htri, range_map_getD]

theorem C6_witness :
    ((1 : Nat) ≤ 1 ∧ [(5 : ℝ)].length = 1 * (1 + 1) / 2) ∧
    readLower (freeCovMat (fun i => [(5 : ℝ)].getD i 0) 1) 1 = [(5 : ℝ)] :=
  ⟨⟨by decide, rfl⟩, C6_pack_roundtrip [(5 : ℝ)] 1 (by decide) rfl⟩

/-- C8: the coefficient matrix extracted for utility computation always has
its reference column — the last of the `n_choices` columns, index
`n_choices - 1` — identically zero, never filled from the labeled vector,
while each non-reference column `i < n_choices - 1` is read from the
labeled vector's `choice_i` block. -/
theorem C8_reference_column_zero (params : List (PKey × ℝ)) (n_var n_choices r i : Nat)
    (hi : i < n_choices - 1) (hr : r < n_var) :
    bethasMat params n_var n_choices r (n_choices - 1) = 0 ∧
    bethasMat params n_var n_choices r i = (selectChoice params i).getD r 0 := by
  constructor
  · unfold bethasMat
    rw [bethas_foldl_untouched params n_var r (n_choices - 1) _ _
      (fun k hk => by have := List.mem_range.mp hk; omega)]
  · unfold bethasMat
    exact bethas_range_col params n_var r hr (n_choices - 1) i hi

theorem C8_witness :
    ((0 : Nat) < 2 - 1 ∧ (0 : Nat) < 1) ∧
    (bethasMat [] 1 2 0 (2 - 1) = 0 ∧
     bethasMat [] 1 2 0 0 = (selectChoice [] 0).getD 0 0) :=
  ⟨⟨by decide, by decide⟩, C8_reference_column_zero [] 1 2 0 0 (by decide) (by decide)⟩

/-- C9: under `"iid"` the covariance matrix is fixed, independent of the
parameter vector, and equals `I + 11ᵗ` entrywise within the `d × d` shape;
for `n_choices = 3` (so `d = 2`) it is `[[2, 1], [1, 2]]`. -/
theorem C9_iid_covariance_fixed (c c2 : Nat → ℝ) (d i j : Nat)
    (hi : i < d) (hj : j < d) :
    extractCov "iid" c d i j = extractCov "iid" c2 d i j ∧
    extractCov "iid" c d i j = (if i = j then (1 : ℝ) else 0) + 1 ∧
    extractCov "iid" c 2 0 0 = 2 ∧ extractCov "iid" c 2 0 1 = 1 ∧
    extractCov "iid" c 2 1 0 = 1 ∧ extractCov "iid" c 2 1 1 = 2 := by
  have hform : ∀ (cc : Nat → ℝ) (dd p q : Nat), p < dd → q < dd →
      extractCov "iid" cc dd p q = (if p = q then (1 : ℝ) else 0) + 1 := by
    intro cc dd p q hp hq
    unfold extractCov npEye npOnes
    rw [if_pos (show ("iid" : String) = "iid" from rfl)]
    have hones : p < dd ∧ q < dd := ⟨hp, hq⟩
    by_cases hpq : p = q
    · have heye : p = q ∧ p < dd := ⟨hpq, hp⟩
      rw [if_pos heye, if_pos hones, if_pos hpq]
    · have heye : ¬(p = q ∧ p < dd) := fun h => hpq h.1
      rw [if_neg heye, if_pos hones, if_neg hpq]
  refine ⟨?_, hform c d i j hi hj, ?_, ?_, ?_, ?_⟩
  · rw [hform c d i j hi hj, hform c2 d i j hi hj]
  · rw [hform c 2 0 0 (by omega) (by omega)]; norm_num
  · rw [hform c 2 0 1 (by omega) (by omega)]; norm_num
  · rw [hform c 2 1 0 (by omega) (by omega)]; norm_num
  · rw [hform c 2 1 1 (by omega) (by omega)]; norm_num

theorem C9_witness :
    ((0 : Nat) < 2 ∧ (1 : Nat) < 2) ∧
    (extractCov "iid" (fun _ => (0 : ℝ)) 2 0 1 = extractCov "iid" (fun _ => (37 : ℝ)) 2 0 1 ∧
     extractCov "iid" (fun _ => (0 : ℝ)) 2 0 1 = (if (0 : Nat) = 1 then (1 : ℝ) else 0) + 1 ∧
     extractCov "iid" (fun _ => (0 : ℝ)) 2 0 0 = 2 ∧
     extractCov "iid" (fun _ => (0 : ℝ)) 2 0 1 = 1 ∧
     extractCov "iid" (fun _ => (0 : ℝ)) 2 1 0 = 1 ∧
     extractCov "iid" (fun _ => (0 : ℝ)) 2 1 1 = 2) :=
  ⟨⟨by decide, by decide⟩,
    C9_iid_covariance_fixed (fun _ => (0 : ℝ)) (fun _ => (37 : ℝ)) 2 0 1
      (by decide) (by decide)⟩

/-- C4: for every valid covariance structure the integration routine is
selected solely by the `integration_method` name: the source's branch
comparing `cov_structure` against `"gauss_integration"` can never fire
(validation has pinned `cov_structure` to `"iid"` or `"free"`), so the
dispatch equals the purely-name-based dispatch, and the likelihood
evaluator equals the variant using that dispatch applied to the tuple
`(u_prime, covariance, y)` with `u_prime = x · bethas`. -/
theorem C4_dispatch_by_method_only (M : IntegrationModule) (s im : String)
    (hs : s = "iid" ∨ s = "free")
    (u cov : Nat → Nat → ℝ) (yv : List ℤ)
    (params : List (PKey × ℝ)) (y : List ℤ) (x : List (List ℝ)) :
    codeDispatch M s im u cov yv = specDispatch M im u cov yv ∧
    multinomial_probit_loglikeobs M params y x s im
      = (specDispatch M im
          (uprimeMat x (bethasMat params (x.headD []).length y.dedup.length)
            (x.headD []).length)
          (extractCov s (covValues params) (y.dedup.length - 1)) y).map
          probsToLoglik := by
  have hgauss : s ≠ "gauss_integration" := by
    rcases hs with h | h <;> subst h <;> decide
  have hdisp : ∀ (u2 cov2 : Nat → Nat → ℝ) (y2 : List ℤ),
      codeDispatch M s im u2 cov2 y2 = specDispatch M im u2 cov2 y2 := by
    intro u2 cov2 y2
    unfold codeDispatch specDispatch
    rw [if_neg hgauss]
  have hvalid : ¬(s ≠ "iid" ∧ s ≠ "free") := by
    rcases hs with h | h <;> subst h <;> simp
  refine ⟨hdisp u cov yv, ?_⟩
  unfold multinomial_probit_loglikeobs
  rw [if_neg hvalid]
  show (codeDispatch M s im
      (uprimeMat x (bethasMat params (x.headD []).length y.dedup.length)
        (x.headD []).length)
      (extractCov s (covValues params) (y.dedup.length - 1)) y).map probsToLoglik = _
  rw [hdisp]

theorem C4_witness :
    (("iid" : String) = "iid" ∨ ("iid" : String) = "free") ∧
    (codeDispatch ⟨fun _ => none⟩ "iid" "mc_integration" (fun _ _ => 0) (fun _ _ => 0) []
        = specDispatch ⟨fun _ => none⟩ "mc_integration" (fun _ _ => 0) (fun _ _ => 0) [] ∧
      multinomial_probit_loglikeobs ⟨fun _ => none⟩ [] [] [] "iid" "mc_integration"
        = (specDispatch ⟨fun _ => none⟩ "mc_integration"
            (uprimeMat [] (bethasMat [] 0 0) 0)
            (extractCov "iid" (covValues []) 0) []).map probsToLoglik) :=
  ⟨Or.inl rfl,
    C4_dispatch_by_method_only ⟨fun _ => none⟩ "iid" "mc_integration" (Or.inl rfl)
      (fun _ _ => 0) (fun _ _ => 0) [] [] [] []⟩

/-- C10: with a valid covariance structure but an `integration_method` that
the integration-method module does not expose, the likelihood evaluator
fails inside the generic attribute lookup with the `AttributeError`
message — not with the configuration error — while the top-level
`multinomial_probit` performs no validation of `integration_method` before
handing the problem to the maximizer: it still completes data preparation
and returns the maximizer's result. -/
theorem C10_unknown_integration_method {D : Type}
    (patsy : String → D → List ℤ × List String × List (List ℝ))
    (M : IntegrationModule) (rand : Nat → ℝ) (formula : String) (data : D)
    (params : List (PKey × ℝ)) (y : List ℤ) (x : List (List ℝ))
    (s im algorithm : String)
    (hs : s = "iid" ∨ s = "free") (hm : M.routines im = none) :
    multinomial_probit_loglikeobs M params y x s im
      = Except.error (attributeErrorMsg im) ∧
    attributeErrorMsg im ≠ covStructureError ∧
    multinomial_probit patsy M (fun _ _ _ _ => ()) rand formula data s im algorithm
      = Except.ok () := by
  have hvalid : ¬(s ≠ "iid" ∧ s ≠ "free") := by
    rcases hs with h | h <;> subst h <;> simp
  have hgauss : s ≠ "gauss_integration" := by
    rcases hs with h | h <;> subst h <;> decide
  refine ⟨?_, ?_, ?_⟩
  · unfold multinomial_probit_loglikeobs
    rw [if_neg hvalid]
    show (codeDispatch M s im _ _ y).map probsToLoglik = _
    unfold codeDispatch
    rw [if_neg hgauss, hm]
    rfl
  · intro h
    have h1 := congrArg String.length h
    rw [show attributeErrorMsg im
        = "module temfpy.integration_methods has no attribute " ++ im from rfl,
      String.length_append] at h1
    have h2 : ("module temfpy.integration_methods has no attribute " : String).length
        = 51 := rfl
    have h3 : covStructureError.length = 40 := rfl
    omega
  · rcases hs with h | h <;> subst h <;> rfl

theorem C10_witness :
    ((("iid" : String) = "iid" ∨ ("iid" : String) = "free") ∧
      (⟨fun _ => none⟩ : IntegrationModule).routines "bogus" = none) ∧
    (multinomial_probit_loglikeobs ⟨fun _ => none⟩ [] [] [] "iid" "bogus"
        = Except.error (attributeErrorMsg "bogus") ∧
      attributeErrorMsg "bogus" ≠ covStructureError ∧
      multinomial_probit (fun _ _ => ([], [], [])) ⟨fun _ => none⟩ (fun _ _ _ _ => ())
        (fun _ => 0) "f" () "iid" "bogus" "scipy_lbfgsb" = Except.ok ()) :=
  ⟨⟨Or.inl rfl, rfl⟩,
    C10_unknown_integration_method (fun _ _ => ([], [], [])) ⟨fun _ => none⟩ (fun _ => 0)
      "f" () [] [] [] "iid" "bogus" "scipy_lbfgsb" (Or.inl rfl) rfl⟩

/-- C1 (refuting the claim on the code): the source line
`choice_prob_obs.clip(min=1e-250)` discards its result (`ndarray.clip` is
not in place), so `np.log` is taken of the UNCLIPPED probabilities: when
the integration routine returns probability exactly `0`, the
per-observation log-likelihood entry is `-∞`, not a finite real.  The
second and third conjuncts confirm the claim captures the intended
behavior: clipping `[0]` at the floor gives `[1e-250]`, whose log is not
`-∞`. -/
theorem C1_clip_result_discarded :
    multinomial_probit_loglikeobs
      ⟨fun n => if n = "mc_integration" then some (fun _ _ _ => [(0 : ℝ)]) else none⟩
      [] [0] [[1]] "iid" "mc_integration" = Except.ok [(⊥ : EReal)] ∧
    npClipMin clipFloor [(0 : ℝ)] = [clipFloor] ∧
    npLog clipFloor ≠ (⊥ : EReal) := by
  have hfloor : (0 : ℝ) < clipFloor := by unfold clipFloor; norm_num
  refine ⟨?_, ?_, ?_⟩
  · have h1 : multinomial_probit_loglikeobs
        ⟨fun n => if n = "mc_integration" then some (fun _ _ _ => [(0 : ℝ)]) else none⟩
        [] [0] [[1]] "iid" "mc_integration" = Except.ok [npLog 0] := rfl
    rw [h1]
    have h2 : npLog 0 = (⊥ : EReal) := by
      unfold npLog
      rw [if_neg (lt_irrefl (0 : ℝ))]
    rw [h2]
  · unfold npClipMin
    rw [List.map_cons, List.map_nil, max_eq_right (le_of_lt hfloor)]
  · unfold npLog
    rw [if_pos hfloor]
    exact EReal.coe_ne_bot _

/-- C7 (amended): the outcome vector returned by data preparation is the
parsed outcome column re-based by subtracting its minimum, so every entry
is a nonnegative integer and the value `0` is attained; the entries need
NOT lie in `{0, …, m-1}` when the observed categories are not consecutive
(see the counterexample theorem). -/
theorem C7_rebased_outcome {D : Type}
    (patsy : String → D → List ℤ × List String × List (List ℝ))
    (rand : Nat → ℝ) (formula : String) (data : D) (s : String)
    (hs : s = "iid" ∨ s = "free") (hy : (patsy formula data).1 ≠ []) :
    procY (multinomial_processing patsy rand formula data s)
      = some ((patsy formula data).1.map
          (fun v => v - listMin (patsy formula data).1)) ∧
    (∀ v ∈ (patsy formula data).1.map
        (fun v => v - listMin (patsy formula data).1), 0 ≤ v) ∧
    (0 : ℤ) ∈ (patsy formula data).1.map
        (fun v => v - listMin (patsy formula data).1) := by
  have hvalid : ¬(s ≠ "iid" ∧ s ≠ "free") := by
    rcases hs with h | h <;> subst h <;> simp
  refine ⟨?_, ?_, ?_⟩
  · unfold multinomial_processing
    rw [if_neg hvalid]
    rfl
  · intro v hv
    rcases List.mem_map.mp hv with ⟨w, hw, rfl⟩
    have := listMin_le (patsy formula data).1 w hw
    omega
  · refine List.mem_map.mpr ⟨listMin (patsy formula data).1, listMin_mem _ hy, ?_⟩
    omega

theorem C7_witness :
    ((("iid" : String) = "iid" ∨ ("iid" : String) = "free") ∧
      ([3, 1] : List ℤ) ≠ []) ∧
    (procY (multinomial_processing
        (fun _ _ => (([3, 1] : List ℤ), ["c"], [[(1 : ℝ)]])) (fun _ => 0) "f" () "iid")
      = some (([3, 1] : List ℤ).map (fun v => v - listMin [3, 1])) ∧
     (∀ v ∈ ([3, 1] : List ℤ).map (fun v => v - listMin [3, 1]), 0 ≤ v) ∧
     (0 : ℤ) ∈ ([3, 1] : List ℤ).map (fun v => v - listMin [3, 1])) :=
  ⟨⟨Or.inl rfl, by decide⟩,
    C7_rebased_outcome (fun _ _ => (([3, 1] : List ℤ), ["c"], [[(1 : ℝ)]]))
      (fun _ => 0) "f" () "iid" (Or.inl rfl) (by decide)⟩

/-- C7 counterexample: with observed categories `{1, 3}` the number of
distinct categories is `m = 2`, yet the returned choice codes are
`[0, 2]` — the entry `2` does not lie in `{0, …, m-1}` — because the
source only subtracts the minimum and never re-indexes the categories
densely. -/
theorem C7_gap_categories_counterexample :
    procY (multinomial_processing
        (fun _ _ => (([1, 3] : List ℤ), ["c"], [[(1 : ℝ)]]))
        (fun _ => 0) "f" () "iid")
      = some [0, 2] ∧
    ([1, 3] : List ℤ).dedup.length = 2 ∧
    ¬(∀ v ∈ ([0, 2] : List ℤ), 0 ≤ v ∧ v < 2) :=
  ⟨rfl, by decide, by decide⟩
